import Mathlib

/-
Verification development for digisoft-media/comparer-tool
(src/extract_titles.py).

The development shallowly embeds the Python source over a tree model of
the parsed HTML document.  Pure helper functions of the source become
Lean functions; BeautifulSoup traversal primitives (find_all, find,
find_next_sibling, get_text, .string, attribute access) are embedded as
recursive functions over the node tree with the library's documented
semantics; Python dicts become insertion-ordered association lists;
Python exceptions become Except values where the control flow of the
source depends on them.  All definitions are executable.
-/

set_option maxHeartbeats 1000000

namespace ComparerTool

/-! ## Generic string helpers (Python-faithful primitives) -/

/-- Does the first list occur at the very start of the second?  Used to
implement substring search below. -/
def leadsWith : List Char → List Char → Bool
  | [], _ => true
  | _ :: _, [] => false
  | p :: ps, c :: cs => p == c && leadsWith ps cs

/-- Does the second list occur contiguously inside the first?  Embeds the
semantics of the Python test "pat in s". -/
def hasSub (pat : List Char) : List Char → Bool
  | [] => leadsWith pat []
  | c :: cs => leadsWith pat (c :: cs) || hasSub pat cs

/-- Embeds Python "pat in s" (substring containment) on strings. -/
def strContainsSub (s pat : String) : Bool := hasSub pat.data s.data

/-- Embeds Python str.strip(): drop whitespace from both ends. -/
def pyStrip (s : String) : String :=
  ⟨(((s.data.dropWhile Char.isWhitespace).reverse.dropWhile Char.isWhitespace).reverse)⟩

/-- Embeds Python " ".join(parts). -/
def joinSpace : List String → String
  | [] => ""
  | s :: rest => rest.foldl (fun a b => a ++ " " ++ b) s

/-- Numeric value of a decimal digit string (most significant first). -/
def digitsVal (s : String) : Nat := s.data.foldl (fun a c => 10 * a + (c.toNat - 48)) 0

/-- Embeds Python s.split('.') on the character list. -/
def splitDots : List Char → List (List Char)
  | [] => [[]]
  | c :: cs =>
    match splitDots cs with
    | [] => [[]]
    | p :: ps => if c = '.' then [] :: p :: ps else (c :: p) :: ps

/-- Embeds Python s.split('_', 1): some (before, after) at the first
underscore, none when no underscore occurs. -/
def splitFirstUnder : List Char → Option (List Char × List Char)
  | [] => none
  | c :: cs =>
    if c = '_' then some ([], cs)
    else (splitFirstUnder cs).map (fun p => (c :: p.1, p.2))

/-! ## Document tree model

A parsed HTML document is a tree of element nodes (tag, attributes,
class tokens, children) and text nodes, mirroring what BeautifulSoup
exposes to the source. -/

inductive Node where
  | el (tag : String) (attrs : List (String × String)) (classes : List String)
       (children : List Node)
  | txt (s : String)

/-- Class-token list of a node; text nodes have none.  Embeds
tag.get("class", []). -/
def Node.classesOf : Node → List String
  | .el _ _ cs _ => cs
  | .txt _ => []

/-- Attribute lookup.  Embeds tag.get(key). -/
def Node.getAttr : Node → String → Option String
  | .el _ attrs _ _, k => (attrs.find? (fun p => p.1 == k)).map Prod.snd
  | .txt _, _ => none

/-- Attribute lookup with '' default.  Embeds tag.get(key, ''). -/
def Node.attrD (n : Node) (k : String) : String := (n.getAttr k).getD ""

/-- Tag-name test; text nodes match no tag. -/
def Node.tagIs : Node → String → Bool
  | .el t _ _ _, s => t == s
  | .txt _, _ => false

mutual

/-- All text-node contents of a subtree in document order (the node's
own content for a text node).  Basis of BeautifulSoup get_text. -/
def Node.textParts : Node → List String
  | .txt s => [s]
  | .el _ _ _ cs => textPartsL cs

def textPartsL : List Node → List String
  | [] => []
  | c :: cs => Node.textParts c ++ textPartsL cs

end

/-- Embeds BeautifulSoup get_text(strip=True): each text piece stripped,
then concatenated. -/
def Node.getTextStrip (n : Node) : String :=
  String.join ((Node.textParts n).map pyStrip)

mutual

/-- Embeds BeautifulSoup find_all(pred): all proper descendants that
satisfy the predicate, in document (pre-)order. -/
def Node.findAll (p : Node → Bool) : Node → List Node
  | .txt _ => []
  | .el _ _ _ cs => findAllL p cs

def findAllL (p : Node → Bool) : List Node → List Node
  | [] => []
  | c :: rest => (if p c then [c] else []) ++ Node.findAll p c ++ findAllL p rest

end

/-- Embeds BeautifulSoup find(pred): first matching descendant. -/
def Node.findFirst (p : Node → Bool) (n : Node) : Option Node :=
  (Node.findAll p n).head?

/-- Embeds the BeautifulSoup .string property: a text node is its own
string; an element with exactly one child delegates to it; anything
else has no string. -/
def Node.pyString : Node → Option String
  | .txt s => some s
  | .el _ _ _ [c] => Node.pyString c
  | .el _ _ _ _ => none

/-! ## Node predicates used by the source's find calls -/

/-- The find_all("div", {"data-testid": v}) / {"role": v} matcher. -/
def isDivWithAttr (key v : String) (n : Node) : Bool :=
  n.tagIs "div" && n.getAttr key == some v

/-- div with data-testid="CommandResult" (extract_titles_from_html). -/
def isCommandResult (n : Node) : Bool := isDivWithAttr "data-testid" "CommandResult" n

/-- div with data-testid="ansi-output" (title strategy 1 container). -/
def isAnsiOutputContainer (n : Node) : Bool := isDivWithAttr "data-testid" "ansi-output" n

/-- div whose class token list has a token containing "ansiout"
(class_=lambda x: x and "ansiout" in x; BeautifulSoup applies the lambda
to each class token of the multi-valued attribute). -/
def isAnsioutDiv (n : Node) : Bool :=
  n.tagIs "div" && (Node.classesOf n).any (fun c => strContainsSub c "ansiout")

/-- div matched by find_all("div", string=lambda t: t and "User Selects"
in t): a div whose .string exists and contains the marker. -/
def isUserSelectsDiv (n : Node) : Bool :=
  n.tagIs "div" &&
    (match Node.pyString n with
     | some s => strContainsSub s "User Selects"
     | none => false)

/-- div with role="columnheader". -/
def isColumnHeader (n : Node) : Bool := isDivWithAttr "role" "columnheader" n

/-- div with role="row". -/
def isRowDiv (n : Node) : Bool := isDivWithAttr "role" "row" n

/-- div with role="cell". -/
def isCellDiv (n : Node) : Bool := isDivWithAttr "role" "cell" n

/-- span whose class token list has a token containing "dg--header-text". -/
def isHeaderTextSpan (n : Node) : Bool :=
  n.tagIs "span" && (Node.classesOf n).any (fun c => strContainsSub c "dg--header-text")

/-- span whose class token list has a token containing "dg--default-cell". -/
def isDefaultCellSpan (n : Node) : Bool :=
  n.tagIs "span" && (Node.classesOf n).any (fun c => strContainsSub c "dg--default-cell")

/-! ## extract_table_data (src/extract_titles.py lines 6-97) -/

/-- A table row: insertion-ordered association list embedding a Python
dict from column name to raw cell text. -/
abbrev Row := List (String × String)

/-- Python dict assignment d[k] = v on an insertion-ordered association
list: update in place when the key exists, append otherwise. -/
def dictInsert (r : Row) (k v : String) : Row :=
  if k ∈ r.map Prod.fst then r.map (fun p => if p.1 = k then (k, v) else p)
  else r ++ [(k, v)]

/-- Locating the grid container: find div[data-testid="datagrid.table"],
falling back to div[role="table"] (lines 15-18). -/
def findGrid (cr : Node) : Option Node :=
  match Node.findFirst (isDivWithAttr "data-testid" "datagrid.table") cr with
  | some g => some g
  | none => Node.findFirst (isDivWithAttr "role" "table") cr

/-- Header-name resolution for one columnheader div (lines 26-40):
header-text span's stripped text, else non-empty aria-label, else
non-empty data-cell-id, else skipped. -/
def headerName (h : Node) : Option String :=
  match Node.findFirst isHeaderTextSpan h with
  | some sp => some (Node.getTextStrip sp)
  | none =>
    if Node.attrD h "aria-label" ≠ "" then some (Node.attrD h "aria-label")
    else if Node.attrD h "data-cell-id" ≠ "" then some (Node.attrD h "data-cell-id")
    else none

/-- Headers from columnheader divs, keeping non-empty names other than
"#row_number#" (lines 25-44). -/
def primaryHeaders (dg : Node) : List String :=
  ((Node.findAll isColumnHeader dg).filterMap headerName).filter
    (fun nm => nm ≠ "" ∧ nm ≠ "#row_number#")

/-- Fallback headers: stripped texts of all header-text spans, keeping
the non-empty ones (lines 47-50). -/
def fallbackHeaders (dg : Node) : List String :=
  ((Node.findAll isHeaderTextSpan dg).map Node.getTextStrip).filter (fun t => t ≠ "")

/-- Resolved header list of a grid container (lines 25-50). -/
def headersOf (dg : Node) : List String :=
  let p := primaryHeaders dg
  if p.isEmpty then fallbackHeaders dg else p

/-- Does a cell carry the row-number marker (line 71):
"dg--row-number-cell" in " ".join(cell.get("class", [])). -/
def isRowNumberCell (cell : Node) : Bool :=
  strContainsSub (joinSpace (Node.classesOf cell)) "dg--row-number-cell"

/-- Column name from a data-cell-id (lines 83-85): the substring after
the first '_' when one exists. -/
def colOfCellId (s : String) : Option String :=
  (splitFirstUnder s.data).map (fun p => (⟨p.2⟩ : String))

/-- Processing of one cell of a data row (lines 69-88): skip row-number
cells; require a dg--default-cell span; require a data-cell-id with an
underscore naming a known header; then assign the stripped span text. -/
def cellStep (headers : List String) (acc : Row) (cell : Node) : Row :=
  if isRowNumberCell cell then acc
  else
    match Node.findFirst isDefaultCellSpan cell with
    | none => acc
    | some sp =>
      if Node.attrD cell "data-cell-id" = "" then acc
      else
        match colOfCellId (Node.attrD cell "data-cell-id") with
        | none => acc
        | some col =>
          if col ∈ headers then dictInsert acc col (Node.getTextStrip sp) else acc

/-- row_data accumulated over the cells of one row (lines 68-88). -/
def rowData (headers : List String) (r : Node) : Row :=
  (Node.findAll isCellDiv r).foldl (cellStep headers) []

/-- The row loop (lines 59-92): skip rows containing a columnheader,
skip rows without cells, keep non-empty row_data. -/
def extractRows (headers : List String) : List Node → List Row
  | [] => []
  | r :: rest =>
    if (Node.findFirst isColumnHeader r).isSome then extractRows headers rest
    else if (Node.findAll isCellDiv r).isEmpty then extractRows headers rest
    else if (rowData headers r).isEmpty then extractRows headers rest
    else rowData headers r :: extractRows headers rest

/-- The headers the table reader uses for a CommandResult block, empty
when no grid container is found. -/
def tableHeaders (cr : Node) : List String :=
  match findGrid cr with
  | none => []
  | some dg => headersOf dg

/-- extract_table_data (lines 6-97): locate the grid, resolve headers
(empty result if none resolve), then read the data rows. -/
def extract_table_data (cr : Node) : List Row :=
  match findGrid cr with
  | none => []
  | some dg =>
    if (headersOf dg).isEmpty then []
    else extractRows (headersOf dg) (Node.findAll isRowDiv dg)

/-! ## Title extraction (src/extract_titles.py lines 129-171) -/

/-- First non-empty stripped text among a list of nodes; embeds the
repeated pattern "text = d.get_text(strip=True); if text: take, break". -/
def firstNonEmptyText : List Node → Option String
  | [] => none
  | d :: rest =>
    let t := Node.getTextStrip d
    if t = "" then firstNonEmptyText rest else some t

/-- Strategy-1 nested loop (lines 135-147): for each ansi-output
container, scan its ansiout-classed divs; double break on first hit. -/
def strat1Loop : List Node → Option String
  | [] => none
  | a :: rest =>
    match firstNonEmptyText (Node.findAll isAnsioutDiv a) with
    | some t => some t
    | none => strat1Loop rest

/-- The title lookup for one CommandResult block (lines 129-171):
strategy 1, then strategy 2, then strategy 3, first hit wins. -/
def titleStep (cr : Node) : Option String :=
  match strat1Loop (Node.findAll isAnsiOutputContainer cr) with
  | some t => some t
  | none =>
    match firstNonEmptyText (Node.findAll isAnsioutDiv cr) with
    | some t => some t
    | none => firstNonEmptyText (Node.findAll isUserSelectsDiv cr)

/-- Spec-side statement of detection strategy 1 (spec section 4.2 rule 1):
first non-empty stripped text among the ansiout-classed descendants of
the block's ansi-output containers, in document order. -/
def strat1 (cr : Node) : Option String :=
  firstNonEmptyText
    ((Node.findAll isAnsiOutputContainer cr).flatMap (fun a => Node.findAll isAnsioutDiv a))

/-- Spec-side statement of detection strategy 2 (spec section 4.2 rule 2). -/
def strat2 (cr : Node) : Option String :=
  firstNonEmptyText (Node.findAll isAnsioutDiv cr)

/-- Spec-side statement of detection strategy 3 (spec section 4.2 rule 3). -/
def strat3 (cr : Node) : Option String :=
  firstNonEmptyText (Node.findAll isUserSelectsDiv cr)

/-! ## Title-table association and orchestration (lines 127-229) -/

/-- Table attached to a title given the next CommandResult sibling
(lines 178-190): only that sibling is inspected, and only its class
string is checked for "command-result-tabs". -/
def codeAssoc : Option Node → List Row
  | none => []
  | some ns =>
    if strContainsSub (joinSpace (Node.classesOf ns)) "command-result-tabs" then
      extract_table_data ns
    else []

/-- Body of the per-block loop (lines 128-195): title lookup, then (for
a truthy title) association through the next CommandResult sibling. -/
def processBlock (b : Node) (ns : Option Node) : Option (String × List Row) :=
  match titleStep b with
  | none => none
  | some t => if t = "" then none else some (t, codeAssoc ns)

mutual

/-- Every CommandResult descendant in document order, paired with its
next CommandResult sibling; embeds soup.find_all("div",
{"data-testid": "CommandResult"}) together with the per-element
find_next_sibling("div", {"data-testid": "CommandResult"}) (line 178). -/
def collectPairsN : Node → List (Node × Option Node)
  | .txt _ => []
  | .el _ _ _ cs => collectPairsL cs

def collectPairsL : List Node → List (Node × Option Node)
  | [] => []
  | c :: rest =>
    (if isCommandResult c then [(c, rest.find? isCommandResult)] else [])
      ++ collectPairsN c ++ collectPairsL rest

end

/-- The per-block loop with its try/except (lines 127-223): a body that
raises is caught and the block skipped; a body with no title yields
nothing; otherwise the result is appended. -/
def processBlocksExc
    (f : Node → Option Node → Except String (Option (String × List Row))) :
    List (Node × Option Node) → List (String × List Row)
  | [] => []
  | (b, ns) :: rest =>
    match f b ns with
    | .error _ => processBlocksExc f rest
    | .ok none => processBlocksExc f rest
    | .ok (some r) => r :: processBlocksExc f rest

/-- extract_titles_from_html (lines 99-229) on a parsed document. -/
def extract_titles_from_html (root : Node) : List (String × List Row) :=
  processBlocksExc (fun b ns => Except.ok (processBlock b ns)) (collectPairsN root)

/-- Modelled from the spec (section 4.3): the Table Locator presence
check, stated only for comparison with the code's association rule — a
class token string containing "command-result-tabs" or a descendant
data-grid table container. -/
def specTablePresence (n : Node) : Bool :=
  strContainsSub (joinSpace (Node.classesOf n)) "command-result-tabs" ||
    (Node.findFirst (isDivWithAttr "data-testid" "datagrid.table") n).isSome

/-! ## Value normalization and the Excel emitter (lines 240-317) -/

/-- A spreadsheet cell value as the source distinguishes them: Python
str, int, or float (floats modelled as exact rationals). -/
inductive PyVal where
  | vStr (s : String)
  | vInt (n : Int)
  | vFloat (q : Rat)
deriving DecidableEq, Repr

/-- Embeds Python str.isdigit for the strings reachable here: non-empty
and all decimal digits. -/
def pyIsDigitStr (s : String) : Bool := !s.isEmpty && s.data.all Char.isDigit

/-- Remove every occurrence of the given characters; embeds chained
str.replace(c, ''). -/
def stripChars (s : String) (bad : List Char) : String :=
  ⟨s.data.filter (fun c => !(bad.contains c))⟩

/-- Embeds Python float(s) for the strings reachable at the call site
(digits and dots after comma removal): defined on at most one dot with
at least one digit, raising (none) otherwise. -/
def pyFloatOfNumeric (s : String) : Option Rat :=
  match splitDots s.data with
  | [a] => if pyIsDigitStr ⟨a⟩ then some ((digitsVal ⟨a⟩ : Rat)) else none
  | [a, b] =>
    if (a ++ b).all Char.isDigit && !(a.isEmpty && b.isEmpty) then
      some ((digitsVal ⟨a⟩ : Rat) + (digitsVal ⟨b⟩ : Rat) / ((10 : Rat) ^ b.length))
    else none
  | _ => none

/-- The value conversion of save_titles_to_excel (lines 281-286): when
the comma- and dot-stripped text is all digits, float() of the
comma-stripped text, any conversion error swallowed; otherwise the
value is left unchanged. -/
def normalizeCell : PyVal → PyVal
  | .vStr s =>
    if pyIsDigitStr (stripChars s [',', '.']) then
      match pyFloatOfNumeric (stripChars s [',']) with
      | some q => .vFloat q
      | none => .vStr s
    else .vStr s
  | v => v

/-- One written spreadsheet line, in order: a title line, a bold header
line, a data line, or the blank separator line. -/
inductive SheetLine where
  | titleLine (t : String)
  | headerLine (cols : List String)
  | dataLine (cells : List PyVal)
  | blankLine
deriving DecidableEq, Repr

/-- Key list of a row in insertion order; embeds list(d.keys()). -/
def rowKeys (r : Row) : List String := r.map Prod.fst

/-- Embeds Python d.get(k, ''). -/
def pyGet (r : Row) (k : String) : String :=
  ((r.find? (fun p => p.1 == k)).map Prod.snd).getD ""

/-- One written data line (lines 277-288): for each chosen column, the
row's value under it (the empty string when absent) after normalization. -/
def dataLineOf (cols : List String) (r : Row) : SheetLine :=
  .dataLine (cols.map (fun c => normalizeCell (.vStr (pyGet r c))))

/-- The lines written for one result (lines 255-291): the title; when
the table is non-empty, a header line holding the FIRST row's keys and
one data line per row; then the blank separator. -/
def emitResult : String × List Row → List SheetLine
  | (t, td) =>
    (SheetLine.titleLine t ::
      (match td with
       | [] => []
       | h :: _ => SheetLine.headerLine (rowKeys h) :: td.map (dataLineOf (rowKeys h))))
      ++ [SheetLine.blankLine]

/-- save_titles_to_excel (lines 240-317), as the ordered list of written
lines (styling and column widths carry no data and are not modelled). -/
def save_titles_to_excel (results : List (String × List Row)) : List SheetLine :=
  results.flatMap emitResult

/-- Append a column name unless already present (first-seen order). -/
def unionIns (a : List String) (k : String) : List String :=
  if k ∈ a then a else a ++ [k]

/-- Modelled from the spec (section 4.5): the ordered union, in
first-seen order, of all column names across a table's rows — stated
only for comparison with the code's header-row choice. -/
def orderedUnion (td : List Row) : List String :=
  td.foldl (fun acc r => (rowKeys r).foldl unionIns acc) []

/-! ## CLI entry (lines 319-354) -/

/-- The fixed candidate list the entry point probes (lines 321-325). -/
def candidate_html_files : List String :=
  ["body.html", "Dimension Scenarios.html", "Dimension Scenarios v3.html"]

/-- Input selection (lines 327-331): the first candidate that exists on
the filesystem, given as an existence predicate. -/
def selectInputFile (ex : String → Bool) : Option String :=
  candidate_html_files.find? ex

/-- Outcome of the entry point before extraction: exit(1) when no
candidate exists, otherwise extraction runs on the selected file. -/
inductive MainStart where
  | exitCode (n : Nat)
  | runExtraction (file : String)
deriving DecidableEq, Repr

/-- The entry point's start behavior (lines 327-345). -/
def mainStart (ex : String → Bool) : MainStart :=
  match selectInputFile ex with
  | none => .exitCode 1
  | some f => .runExtraction f

/-! ## Concrete documents used as counterexample and witness inputs -/

/-- A CommandResult block carrying a title through an ansiout div. -/
def exTitleBlock : Node :=
  .el "div" [("data-testid", "CommandResult")] []
    [.el "div" [] ["ansiout"] [.txt "User Selects Alpha"]]

/-- A CommandResult block with neither a title nor a table. -/
def exFillerBlock : Node :=
  .el "div" [("data-testid", "CommandResult")] [] []

/-- A data grid with one header column "acct" and one data row. -/
def exGrid : Node :=
  .el "div" [("data-testid", "datagrid.table")] []
    [.el "div" [("role", "row")] []
       [.el "div" [("role", "columnheader")] []
          [.el "span" [] ["dg--header-text"] [.txt "acct"]]],
     .el "div" [("role", "row")] []
       [.el "div" [("role", "cell"), ("data-cell-id", "0_acct")] []
          [.el "span" [] ["dg--default-cell"] [.txt "42"]]]]

/-- A table-hosting CommandResult block (class command-result-tabs). -/
def exTableBlock : Node :=
  .el "div" [("data-testid", "CommandResult")] ["command-result-tabs"] [exGrid]

/-- A document whose table block sits two sibling blocks after the
title block, with a block carrying no title in between. -/
def exRoot : Node := .el "div" [] [] [exTitleBlock, exFillerBlock, exTableBlock]

/-- A value span holding no text at all. -/
def exEmptySpan : Node := .el "span" [] ["dg--default-cell"] []

/-- A data cell with an identifier for column "B" but empty text. -/
def exCellB : Node :=
  .el "div" [("role", "cell"), ("data-cell-id", "0_B")] [] [exEmptySpan]

/-- A data cell with non-empty text but no identifier attribute. -/
def exCellNoId : Node :=
  .el "div" [("role", "cell")] [] [.el "span" [] ["dg--default-cell"] [.txt "x"]]

/-- A grid with headers A and B whose single data row holds the two
cells above: no-identifier text, and identified-but-empty text. -/
def exC2Grid : Node :=
  .el "div" [("data-testid", "datagrid.table")] []
    [.el "div" [("role", "row")] []
       [.el "div" [("role", "columnheader")] []
          [.el "span" [] ["dg--header-text"] [.txt "A"]],
        .el "div" [("role", "columnheader")] []
          [.el "span" [] ["dg--header-text"] [.txt "B"]]],
     .el "div" [("role", "row")] [] [exCellNoId, exCellB]]

/-- The table-hosting block around exC2Grid. -/
def exC2Block : Node :=
  .el "div" [("data-testid", "CommandResult")] ["command-result-tabs"] [exC2Grid]

/-- A row-number cell (class dg--row-number-cell). -/
def exRowNumCell : Node :=
  .el "div" [("role", "cell")] ["dg--row-number-cell"]
    [.el "span" [] ["dg--default-cell"] [.txt "1"]]

/-! ## Helper lemmas -/

/-- unionIns only ever appends. -/
theorem unionIns_extends (acc : List String) (k : String) :
    ∃ t2, unionIns acc k = acc ++ t2 := by
  unfold unionIns
  by_cases h : k ∈ acc
  · exact ⟨[], by simp [h]⟩
  · exact ⟨[k], by simp [h]⟩

/-- Folding unionIns over a key list only ever appends. -/
theorem insFold_extends (ks : List String) :
    ∀ acc, ∃ t2, ks.foldl unionIns acc = acc ++ t2 := by
  induction ks with
  | nil => exact fun acc => ⟨[], by simp⟩
  | cons k ks ih =>
    intro acc
    obtain ⟨t1, h1⟩ := unionIns_extends acc k
    obtain ⟨t2, h2⟩ := ih (unionIns acc k)
    exact ⟨t1 ++ t2, by rw [List.foldl_cons, h2, h1, List.append_assoc]⟩

/-- The ordered-union outer fold only ever appends. -/
theorem unionFold_extends (rows : List Row) :
    ∀ acc, ∃ t2,
      rows.foldl (fun acc r => (rowKeys r).foldl unionIns acc) acc = acc ++ t2 := by
  induction rows with
  | nil => exact fun acc => ⟨[], by simp⟩
  | cons r rows ih =>
    intro acc
    obtain ⟨t1, h1⟩ := insFold_extends (rowKeys r) acc
    obtain ⟨t2, h2⟩ := ih ((rowKeys r).foldl unionIns acc)
    refine ⟨t1 ++ t2, ?_⟩
    simp only [List.foldl_cons]
    rw [h2, h1, List.append_assoc]

/-- Folding unionIns over fresh, duplicate-free keys appends them all. -/
theorem insFold_fresh (ks : List String) :
    ∀ acc, ks.Nodup → (∀ k ∈ ks, k ∉ acc) → ks.foldl unionIns acc = acc ++ ks := by
  induction ks with
  | nil => intro acc _ _; simp
  | cons k ks ih =>
    intro acc hnd hfresh
    have hk : k ∉ acc := hfresh k (by simp)
    have hins : unionIns acc k = acc ++ [k] := by simp [unionIns, hk]
    rw [List.foldl_cons, hins, ih (acc ++ [k]) (List.nodup_cons.mp hnd).2]
    · simp
    · intro k2 hk2
      simp only [List.mem_append, List.mem_singleton]
      rintro (h | h)
      · exact hfresh k2 (by simp [hk2]) h
      · subst h; exact (List.nodup_cons.mp hnd).1 hk2

/-! ## Claim C3 -/

/-- Claim C3 (counterexample): for the table whose first row has only
column A and whose second row has only column B, the emitted header row
is ["A"], while the first-seen ordered union of columns is ["A", "B"];
column B's value is never written. -/
theorem c3_counterexample :
    save_titles_to_excel [("T", [[("A", "1")], [("B", "2")]])] =
      [SheetLine.titleLine "T", SheetLine.headerLine ["A"], SheetLine.dataLine [PyVal.vFloat 1],
       SheetLine.dataLine [PyVal.vStr ""], SheetLine.blankLine] ∧
    orderedUnion [[("A", "1")], [("B", "2")]] = ["A", "B"] ∧
    (["A"] : List String) ≠ ["A", "B"] :=
  ⟨rfl, rfl, by decide⟩

/-- Claim C3 (amended): the header row written for a non-empty table
consists of the FIRST row's column names in their insertion order (not
the union across all rows); when those names are duplicate-free they
form an initial segment of the ordered union, so columns appearing only
in later rows are silently dropped from the sheet. -/
theorem c3_header_is_first_row_keys (t : String) (h : Row) (rest : List Row) :
    emitResult (t, h :: rest) =
      (SheetLine.titleLine t :: SheetLine.headerLine (rowKeys h) ::
        (h :: rest).map (dataLineOf (rowKeys h))) ++ [SheetLine.blankLine] ∧
    ((rowKeys h).Nodup → ∃ tail, orderedUnion (h :: rest) = rowKeys h ++ tail) := by
  constructor
  · rfl
  · intro hnd
    unfold orderedUnion
    rw [List.foldl_cons]
    have h0 : (rowKeys h).foldl unionIns [] = rowKeys h := by
      have hh := insFold_fresh (rowKeys h) [] hnd (by simp)
      simpa using hh
    show ∃ tail, rest.foldl _ ((rowKeys h).foldl unionIns []) = _
    rw [h0]
    exact unionFold_extends rest (rowKeys h)

/-- Claim C3 (witness for the amended statement at a concrete table). -/
theorem c3_header_is_first_row_keys_witness :
    emitResult ("T", [("A", "1")] :: [[("B", "2")]]) =
      (SheetLine.titleLine "T" :: SheetLine.headerLine (rowKeys [("A", "1")]) ::
        ([("A", "1")] :: [[("B", "2")]]).map (dataLineOf (rowKeys [("A", "1")]))) ++
        [SheetLine.blankLine] ∧
    (∃ tail, orderedUnion ([("A", "1")] :: [[("B", "2")]]) = rowKeys [("A", "1")] ++ tail) :=
  ⟨(c3_header_is_first_row_keys "T" [("A", "1")] [[("B", "2")]]).1,
   (c3_header_is_first_row_keys "T" [("A", "1")] [[("B", "2")]]).2 (by decide)⟩

/-! ## Claim C4 -/

/-- Claim C4 (counterexample): "42" is converted to the float 42.0, not
to an integer, and "-1,000.25" is left unchanged as a string rather
than becoming -1000.25. -/
theorem c4_counterexample :
    normalizeCell (PyVal.vStr "42") = PyVal.vFloat 42 ∧
    normalizeCell (PyVal.vStr "42") ≠ PyVal.vInt 42 ∧
    normalizeCell (PyVal.vStr "-1,000.25") = PyVal.vStr "-1,000.25" :=
  ⟨rfl, by decide, rfl⟩

/-- Claim C4 (amended): the normalizer converts only text whose comma-
and dot-stripped form is all digits — so text containing a '-' (in
particular every negative numeral) is always returned unchanged; a
converted value is always a float, never an integer; and every input
either converts to a float or is returned unchanged (no exception). -/
theorem c4_numeric_nonneg_float_only (s : String) :
    ('-' ∈ s.data → normalizeCell (.vStr s) = .vStr s) ∧
    (normalizeCell (.vStr s) = .vStr s ∨ ∃ q, normalizeCell (.vStr s) = .vFloat q) ∧
    (∀ n : Int, normalizeCell (.vStr s) ≠ .vInt n) := by
  by_cases hg : pyIsDigitStr (stripChars s [',', '.']) = true
  · have hall : ∀ c ∈ (stripChars s [',', '.']).data, c.isDigit = true := by
      unfold pyIsDigitStr at hg
      rw [Bool.and_eq_true] at hg
      exact List.all_eq_true.mp hg.2
    refine ⟨?_, ?_, ?_⟩
    · intro hm
      exfalso
      have hmem : '-' ∈ (stripChars s [',', '.']).data := by
        show '-' ∈ s.data.filter _
        exact List.mem_filter.mpr ⟨hm, by decide⟩
      have hdig := hall '-' hmem
      exact absurd hdig (by decide)
    · cases hf : pyFloatOfNumeric (stripChars s [',']) with
      | some q => exact Or.inr ⟨q, by simp [normalizeCell, hg, hf]⟩
      | none => exact Or.inl (by simp [normalizeCell, hg, hf])
    · intro n
      cases hf : pyFloatOfNumeric (stripChars s [',']) with
      | some q => simp [normalizeCell, hg, hf]
      | none => simp [normalizeCell, hg, hf]
  · rw [Bool.not_eq_true] at hg
    have hn : normalizeCell (.vStr s) = .vStr s := by simp [normalizeCell, hg]
    exact ⟨fun _ => hn, Or.inl hn, fun n => by rw [hn]; simp⟩

/-- Claim C4 (witness for the amended statement): a negative numeral is
returned unchanged. -/
theorem c4_numeric_nonneg_float_only_witness :
    normalizeCell (PyVal.vStr "-5") = PyVal.vStr "-5" :=
  (c4_numeric_nonneg_float_only "-5").1 (by decide)

/-! ## Claim C9 -/

/-- Claim C9 (counterexample): with a filesystem on which exactly the
file "input.html" exists, the entry point exits with status 1 before
any extraction — there is no positional argument through which an
existing input path could be named. -/
theorem c9_counterexample :
    mainStart (fun s => s == "input.html") = MainStart.exitCode 1 ∧
    ((fun s => s == "input.html") "input.html") = true :=
  ⟨rfl, rfl⟩

/-- Claim C9 (amended): the entry point takes no input-path argument;
it probes the fixed candidate list in order, exits with status 1 when
none of the candidates exists, and otherwise runs extraction on the
first existing candidate; no extension warning exists. -/
theorem c9_fixed_candidate_probe :
    (∀ ex, mainStart ex = MainStart.exitCode 1 ↔ ∀ f ∈ candidate_html_files, ex f = false) ∧
    (∀ ex f, mainStart ex = MainStart.runExtraction f →
      ex f = true ∧ f ∈ candidate_html_files) := by
  constructor
  · intro ex
    constructor
    · intro h f hf
      cases hsel : selectInputFile ex with
      | none =>
        have hnone := List.find?_eq_none.mp hsel f hf
        exact Bool.not_eq_true _ |>.mp hnone
      | some g => simp [mainStart, hsel] at h
    · intro hall
      have hsel : selectInputFile ex = none :=
        List.find?_eq_none.mpr (fun f hf => by rw [hall f hf]; simp)
      simp [mainStart, hsel]
  · intro ex f h
    cases hsel : selectInputFile ex with
    | none => simp [mainStart, hsel] at h
    | some g =>
      have hgf : g = f := by
        simpa [mainStart, hsel] using h
      subst hgf
      exact ⟨List.find?_some hsel, List.mem_of_find?_eq_some hsel⟩

/-- Claim C9 (witness for the amended statement): a filesystem with no
candidate file leads to exit status 1. -/
theorem c9_fixed_candidate_probe_witness :
    mainStart (fun _ => false) = MainStart.exitCode 1 :=
  (c9_fixed_candidate_probe.1 (fun _ => false)).mpr (fun _ _ => rfl)

/-! ## Helper lemmas about the title chain and the block loop -/

/-- First-non-empty search distributes over list append. -/
theorem firstNonEmptyText_append (l1 l2 : List Node) :
    firstNonEmptyText (l1 ++ l2) =
      match firstNonEmptyText l1 with
      | some t => some t
      | none => firstNonEmptyText l2 := by
  induction l1 with
  | nil => simp [firstNonEmptyText]
  | cons d rest ih =>
    by_cases h : Node.getTextStrip d = ""
    · simp [firstNonEmptyText, h, ih]
    · simp [firstNonEmptyText, h]

/-- The strategy-1 double loop equals the first-non-empty search over
the flattened container contents. -/
theorem strat1Loop_eq (cs : List Node) :
    strat1Loop cs =
      firstNonEmptyText (cs.flatMap (fun a => Node.findAll isAnsioutDiv a)) := by
  induction cs with
  | nil => rfl
  | cons a rest ih =>
    simp only [strat1Loop, List.flatMap_cons, firstNonEmptyText_append, ih]

/-- A found first-non-empty text is non-empty. -/
theorem firstNonEmptyText_ne_empty :
    ∀ (l : List Node) (t : String), firstNonEmptyText l = some t → t ≠ "" := by
  intro l
  induction l with
  | nil => intro t h; exact absurd h (by simp [firstNonEmptyText])
  | cons d rest ih =>
    intro t h
    by_cases he : Node.getTextStrip d = ""
    · exact ih t (by simpa [firstNonEmptyText, he] using h)
    · have hh : Node.getTextStrip d = t := by simpa [firstNonEmptyText, he] using h
      subst hh
      exact he

/-- A title found by the strategy-1 loop is non-empty. -/
theorem strat1Loop_ne_empty (cs : List Node) (t : String) (h : strat1Loop cs = some t) :
    t ≠ "" :=
  firstNonEmptyText_ne_empty _ t (by rw [← strat1Loop_eq]; exact h)

/-- A found title is non-empty (so the truthiness re-check in the loop
body never rejects it). -/
theorem titleStep_ne_empty (cr : Node) (t : String) (h : titleStep cr = some t) : t ≠ "" := by
  unfold titleStep at h
  cases h1 : strat1Loop (Node.findAll isAnsiOutputContainer cr) with
  | some t1 =>
    rw [h1] at h
    have ht : t1 = t := by simpa using h
    subst ht
    exact strat1Loop_ne_empty _ t1 h1
  | none =>
    rw [h1] at h
    cases h2 : firstNonEmptyText (Node.findAll isAnsioutDiv cr) with
    | some t2 =>
      rw [h2] at h
      have ht : t2 = t := by simpa using h
      subst ht
      exact firstNonEmptyText_ne_empty _ t2 h2
    | none =>
      rw [h2] at h
      exact firstNonEmptyText_ne_empty _ t h

/-- The loop body is the title lookup paired with the association. -/
theorem processBlock_eq_map (b : Node) (ns : Option Node) :
    processBlock b ns = (titleStep b).map (fun t => (t, codeAssoc ns)) := by
  cases h : titleStep b with
  | none => simp [processBlock, h]
  | some t => simp [processBlock, h, titleStep_ne_empty b t h]

/-- The exception-catching loop over an always-succeeding body is a
filterMap of the body. -/
theorem processBlocksExc_ok (g : Node → Option Node → Option (String × List Row)) :
    ∀ l, processBlocksExc (fun b ns => Except.ok (g b ns)) l =
      l.filterMap (fun p => g p.1 p.2) := by
  intro l
  induction l with
  | nil => rfl
  | cons p rest ih =>
    obtain ⟨b, ns⟩ := p
    cases h : g b ns with
    | none => simp [processBlocksExc, h, ih]
    | some r => simp [processBlocksExc, h, ih]

/-! ## Claim C5 -/

/-- Claim C5 (confirmed): the title lookup for a block evaluates the
three detection strategies in order and returns the first non-empty
trimmed text; it returns none exactly when all three strategies find
nothing. -/
theorem c5_title_fallback_chain (cr : Node) :
    titleStep cr = ((strat1 cr).orElse (fun _ => (strat2 cr).orElse (fun _ => strat3 cr))) ∧
    (titleStep cr = none ↔ strat1 cr = none ∧ strat2 cr = none ∧ strat3 cr = none) := by
  have h1 : strat1Loop (Node.findAll isAnsiOutputContainer cr) = strat1 cr :=
    strat1Loop_eq _
  unfold titleStep
  rw [h1]
  rw [show firstNonEmptyText (Node.findAll isAnsioutDiv cr) = strat2 cr from rfl,
    show firstNonEmptyText (Node.findAll isUserSelectsDiv cr) = strat3 cr from rfl]
  cases strat1 cr <;> cases strat2 cr <;> cases strat3 cr <;> simp [Option.orElse]

/-- Claim C5 (witness: the chain applied to a concrete title block). -/
theorem c5_title_fallback_chain_witness :
    titleStep exTitleBlock =
      ((strat1 exTitleBlock).orElse
        (fun _ => (strat2 exTitleBlock).orElse (fun _ => strat3 exTitleBlock))) :=
  (c5_title_fallback_chain exTitleBlock).1

/-! ## Claim C1 -/

/-- Claim C1 (counterexample): in the three-block document exRoot, the
block two positions after the title block satisfies the presence check
(it both carries the command-result-tabs class and holds a grid whose
reader extracts a row), the block in between bears no title at all, yet
the extraction emits the title with an EMPTY table: no lookahead beyond
the immediately following sibling happens. -/
theorem c1_counterexample :
    extract_titles_from_html exRoot = [("User Selects Alpha", [])] ∧
    titleStep exFillerBlock = none ∧
    specTablePresence exTableBlock = true ∧
    extract_table_data exTableBlock = [[("acct", "42")]] :=
  ⟨rfl, rfl, rfl, rfl⟩

/-- Claim C1 (amended): for each confirmed title the associator
inspects ONLY the next CommandResult sibling of the title's block: the
title is paired with that sibling's table when the sibling's joined
class string contains "command-result-tabs", and with an empty table in
every other case; there is no multi-block lookahead window and no
title-based early stop. -/
theorem c1_assoc_is_next_sibling_only (root : Node) :
    extract_titles_from_html root =
      (collectPairsN root).filterMap
        (fun p => (titleStep p.1).map (fun t => (t, codeAssoc p.2))) := by
  unfold extract_titles_from_html
  rw [processBlocksExc_ok]
  simp only [processBlock_eq_map]

/-! ## Claim C6 -/

/-- Claim C6 (confirmed): the emitted titles are exactly the confirmed
titles of the document's CommandResult blocks in document order — one
ExtractionResult per confirmed title, present (with its possibly empty
table) even when no qualifying table block follows. -/
theorem c6_every_title_emitted (root : Node) :
    (extract_titles_from_html root).map Prod.fst =
      ((collectPairsN root).map Prod.fst).filterMap titleStep := by
  unfold extract_titles_from_html
  rw [processBlocksExc_ok, List.map_filterMap, List.filterMap_map]
  simp only [processBlock_eq_map, Option.map_map]
  congr 1
  funext p
  cases h : titleStep p.1 with
  | none => simp [Function.comp, h]
  | some t => simp [Function.comp, h]

/-! ## Claim C8 -/

/-- Claim C8 (confirmed): the per-block loop catches a raising body at
one block and continues with the remaining blocks unchanged — one
malformed block never aborts the rest; and the extraction is exactly
this loop over the per-block body. -/
theorem c8_per_block_exception_isolation :
    (∀ root, extract_titles_from_html root =
      processBlocksExc (fun b ns => Except.ok (processBlock b ns)) (collectPairsN root)) ∧
    (∀ (f : Node → Option Node → Except String (Option (String × List Row)))
       (pre post : List (Node × Option Node)) (b : Node) (ns : Option Node) (e : String),
       f b ns = Except.error e →
       processBlocksExc f (pre ++ (b, ns) :: post) = processBlocksExc f (pre ++ post)) := by
  constructor
  · intro root; rfl
  · intro f pre post b ns e hf
    induction pre with
    | nil => simp [processBlocksExc, hf]
    | cons p rest ih =>
      obtain ⟨b2, ns2⟩ := p
      cases h2 : f b2 ns2 with
      | error e2 => simp [processBlocksExc, h2, ih]
      | ok r =>
        cases r with
        | none => simp [processBlocksExc, h2, ih]
        | some rr => simp [processBlocksExc, h2, ih]

/-- Claim C8 (witness): a body failing on the first block leaves the
processing of the remaining block intact. -/
theorem c8_per_block_exception_isolation_witness :
    processBlocksExc (fun _ _ => Except.error "boom")
        [(Node.txt "bad", none), (Node.txt "rest", none)] =
      processBlocksExc (fun _ _ => Except.error "boom") [(Node.txt "rest", none)] :=
  c8_per_block_exception_isolation.2 (fun _ _ => Except.error "boom") []
    [(Node.txt "rest", none)] (Node.txt "bad") none "boom" rfl

/-! ## Helper lemmas about the cell identifier and the row reader -/

/-- No underscore means no split. -/
theorem splitFirstUnder_eq_none : ∀ cs : List Char, '_' ∉ cs → splitFirstUnder cs = none := by
  intro cs
  induction cs with
  | nil => intro _; rfl
  | cons c cs ih =>
    intro h
    have hc : c ≠ '_' := fun hh => h (by simp [hh])
    have hcs : '_' ∉ cs := fun hh => h (by simp [hh])
    simp [splitFirstUnder, hc, ih hcs]

/-- The split cuts at the FIRST underscore. -/
theorem splitFirstUnder_append (post : List Char) :
    ∀ pre : List Char, '_' ∉ pre → splitFirstUnder (pre ++ '_' :: post) = some (pre, post) := by
  intro pre
  induction pre with
  | nil => intro _; simp [splitFirstUnder]
  | cons c cs ih =>
    intro h
    have hc : c ≠ '_' := fun hh => h (by simp [hh])
    have hcs : '_' ∉ cs := fun hh => h (by simp [hh])
    simp [splitFirstUnder, hc, ih hcs]

/-- An empty identifier resolves no column. -/
theorem colOfCellId_empty : colOfCellId "" = none := rfl

/-- dictInsert only introduces the inserted key. -/
theorem mem_dictInsert (r : Row) (k v : String) (kv : String × String)
    (h : kv ∈ dictInsert r k v) : kv.1 = k ∨ kv ∈ r := by
  unfold dictInsert at h
  by_cases hk : k ∈ r.map Prod.fst
  · rw [if_pos hk] at h
    obtain ⟨p, hp, hpe⟩ := List.mem_map.mp h
    by_cases hpk : p.1 = k
    · left; rw [← hpe]; simp [hpk]
    · right; rw [← hpe]; simp only [if_neg hpk]; exact hp
  · rw [if_neg hk] at h
    rcases List.mem_append.mp h with h1 | h1
    · right; exact h1
    · left
      have hkv : kv = (k, v) := by simpa using h1
      rw [hkv]

/-- Each cell either leaves the accumulated row unchanged or inserts a
column that belongs to the header list. -/
theorem cellStep_cases (hs : List String) (acc : Row) (cell : Node) :
    cellStep hs acc cell = acc ∨
      ∃ col v, col ∈ hs ∧ cellStep hs acc cell = dictInsert acc col v := by
  by_cases hr : isRowNumberCell cell = true
  · left
    unfold cellStep
    rw [if_pos hr]
  · rw [Bool.not_eq_true] at hr
    cases hsp : Node.findFirst isDefaultCellSpan cell with
    | none => left; simp [cellStep, hr, hsp]
    | some sp =>
      by_cases hcid : Node.attrD cell "data-cell-id" = ""
      · left; simp [cellStep, hr, hsp, hcid]
      · cases hcol : colOfCellId (Node.attrD cell "data-cell-id") with
        | none => left; simp [cellStep, hr, hsp, hcid, hcol]
        | some col =>
          by_cases hmem : col ∈ hs
          · right
            exact ⟨col, Node.getTextStrip sp, hmem,
              by simp [cellStep, hr, hsp, hcid, hcol, hmem]⟩
          · left; simp [cellStep, hr, hsp, hcid, hcol, hmem]

/-- Folding the cell reader preserves "all keys are headers". -/
theorem foldl_cellStep_keys (hs : List String) :
    ∀ (cells : List Node) (acc : Row), (∀ kv ∈ acc, kv.1 ∈ hs) →
      ∀ kv ∈ cells.foldl (cellStep hs) acc, kv.1 ∈ hs := by
  intro cells
  induction cells with
  | nil => intro acc hacc kv hkv; exact hacc kv hkv
  | cons c cs ih =>
    intro acc hacc kv hkv
    rw [List.foldl_cons] at hkv
    refine ih (cellStep hs acc c) ?_ kv hkv
    intro kv2 hkv2
    rcases cellStep_cases hs acc c with h | ⟨col, v, hcol, h⟩
    · rw [h] at hkv2; exact hacc kv2 hkv2
    · rw [h] at hkv2
      rcases mem_dictInsert _ _ _ _ hkv2 with h1 | h1
      · rw [h1]; exact hcol
      · exact hacc kv2 h1

/-- Every key of a read row belongs to the header list. -/
theorem rowData_keys (hs : List String) (r : Node) :
    ∀ kv ∈ rowData hs r, kv.1 ∈ hs :=
  foldl_cellStep_keys hs _ [] (by simp)

/-- Every emitted row is the cell-reader result of some row node. -/
theorem extractRows_mem (hs : List String) :
    ∀ (rows : List Node) (row : Row), row ∈ extractRows hs rows →
      ∃ r, row = rowData hs r := by
  intro rows
  induction rows with
  | nil => intro row h; exact absurd h (by simp [extractRows])
  | cons r rest ih =>
    intro row h
    unfold extractRows at h
    split at h
    · exact ih row h
    · split at h
      · exact ih row h
      · split at h
        · exact ih row h
        · rcases List.mem_cons.mp h with h1 | h1
          · exact ⟨r, h1⟩
          · exact ih row h1

/-! ## Claim C2 -/

/-- Claim C2 (counterexample): in a table with headers A and B, the
identifier-less cell holding non-empty text "x" contributes nothing (no
positional mapping to column A), while the identified cell whose text
is EMPTY is mapped, so the emitted row is the row with only B mapped to
the empty string — not the row the claim predicts. -/
theorem c2_counterexample :
    extract_table_data exC2Block = [[("B", "")]] ∧
    headersOf exC2Grid = ["A", "B"] ∧
    Node.attrD exCellNoId "data-cell-id" = "" ∧
    Node.getTextStrip exCellNoId = "x" ∧
    ([[("B", "")]] : List Row) ≠ [[("A", "x")]] :=
  ⟨rfl, rfl, rfl, rfl, by decide⟩

/-- Claim C2 (amended): the target column is resolved as the substring
after the FIRST '_' of the cell's data-cell-id; a cell with a value
span but no identifier is dropped (there is no positional fallback);
and a resolved cell's text is mapped to its column even when the text
is empty. -/
theorem c2_cell_resolution_rules :
    (∀ hs acc cell, Node.attrD cell "data-cell-id" = "" → cellStep hs acc cell = acc) ∧
    (∀ hs acc cell sp col, isRowNumberCell cell = false →
       Node.findFirst isDefaultCellSpan cell = some sp →
       colOfCellId (Node.attrD cell "data-cell-id") = some col → col ∈ hs →
       cellStep hs acc cell = dictInsert acc col (Node.getTextStrip sp)) ∧
    (∀ cs : List Char, '_' ∉ cs → colOfCellId (⟨cs⟩ : String) = none) ∧
    (∀ pre post : List Char, '_' ∉ pre →
       colOfCellId (⟨pre ++ '_' :: post⟩ : String) = some ((⟨post⟩ : String))) := by
  refine ⟨?_, ?_, ?_, ?_⟩
  · intro hs acc cell hid
    unfold cellStep
    by_cases hr : isRowNumberCell cell = true
    · simp [hr]
    · rw [Bool.not_eq_true] at hr
      cases hsp : Node.findFirst isDefaultCellSpan cell with
      | none => simp [hr, hsp]
      | some sp => simp [hr, hsp, hid]
  · intro hs acc cell sp col hr hsp hcol hmem
    have hcid : ¬Node.attrD cell "data-cell-id" = "" := by
      intro hh
      rw [hh, colOfCellId_empty] at hcol
      exact Option.noConfusion hcol
    unfold cellStep
    simp [hr, hsp, hcid, hcol, hmem]
  · intro cs h
    unfold colOfCellId
    rw [show (⟨cs⟩ : String).data = cs from rfl, splitFirstUnder_eq_none cs h]
    rfl
  · intro pre post h
    unfold colOfCellId
    rw [show (⟨pre ++ '_' :: post⟩ : String).data = pre ++ '_' :: post from rfl,
      splitFirstUnder_append post pre h]
    rfl

/-- Claim C2 (witness for the amended statement at concrete cells). -/
theorem c2_cell_resolution_rules_witness :
    cellStep ["A", "B"] [] exCellNoId = [] ∧
    cellStep ["A", "B"] [] exCellB = dictInsert [] "B" (Node.getTextStrip exEmptySpan) :=
  ⟨c2_cell_resolution_rules.1 ["A", "B"] [] exCellNoId rfl,
   c2_cell_resolution_rules.2.1 ["A", "B"] [] exCellB exEmptySpan "B" rfl rfl rfl (by decide)⟩

/-! ## Claim C7 -/

/-- Claim C7 (confirmed): a table-hosting block with no locatable grid
or no resolvable headers yields an empty result rather than an error;
and the row loop keeps exactly the non-header rows whose reader result
is non-empty — rows with zero resolved cells are dropped silently. -/
theorem c7_soft_miss_behavior :
    (∀ cr, findGrid cr = none → extract_table_data cr = []) ∧
    (∀ cr dg, findGrid cr = some dg → headersOf dg = [] → extract_table_data cr = []) ∧
    (∀ hs rows, extractRows hs rows =
      ((rows.filter (fun r => (Node.findFirst isColumnHeader r).isNone)).map
          (rowData hs)).filter (fun d => !d.isEmpty)) := by
  refine ⟨?_, ?_, ?_⟩
  · intro cr h
    unfold extract_table_data
    rw [h]
  · intro cr dg h hh
    unfold extract_table_data
    rw [h]
    simp [hh]
  · intro hs rows
    induction rows with
    | nil => rfl
    | cons r rest ih =>
      cases hfc : Node.findFirst isColumnHeader r with
      | some x => simp [extractRows, hfc, ih]
      | none =>
        by_cases hce : (Node.findAll isCellDiv r).isEmpty = true
        · have hrd : rowData hs r = [] := by
            unfold rowData
            rw [List.isEmpty_iff.mp hce]
            rfl
          simp [extractRows, hfc, hce, hrd, ih]
        · rw [Bool.not_eq_true] at hce
          cases hrd : (rowData hs r).isEmpty with
          | true =>
            have hrd2 : rowData hs r = [] := List.isEmpty_iff.mp hrd
            simp [extractRows, hfc, hce, hrd, ih, hrd2]
          | false => simp [extractRows, hfc, hce, hrd, ih]

/-- Claim C7 (witness): a block with no grid at all reads as empty. -/
theorem c7_soft_miss_behavior_witness :
    extract_table_data (Node.txt "no grid here") = [] :=
  c7_soft_miss_behavior.1 (Node.txt "no grid here") rfl

/-! ## Claim C10 -/

/-- Claim C10 (confirmed): every key of every emitted row is one of the
resolved headers of the block's grid (cells naming unknown columns are
dropped), and a row-number cell never contributes anything. -/
theorem c10_row_keys_within_headers :
    (∀ cr row kv, row ∈ extract_table_data cr → kv ∈ row → kv.1 ∈ tableHeaders cr) ∧
    (∀ hs acc cell, isRowNumberCell cell = true → cellStep hs acc cell = acc) := by
  constructor
  · intro cr row kv hrow hkv
    unfold extract_table_data at hrow
    unfold tableHeaders
    cases hg : findGrid cr with
    | none =>
      rw [hg] at hrow
      simp at hrow
    | some dg =>
      rw [hg] at hrow
      dsimp only [] at hrow ⊢
      by_cases hh : (headersOf dg).isEmpty = true
      · rw [if_pos hh] at hrow
        exact absurd hrow (by simp)
      · rw [if_neg hh] at hrow
        obtain ⟨r, hr⟩ := extractRows_mem (headersOf dg) _ row hrow
        rw [hr] at hkv
        exact rowData_keys _ _ kv hkv
  · intro hs acc cell h
    unfold cellStep
    rw [if_pos h]

/-- Claim C10 (witness at the concrete one-row table, plus a concrete
row-number cell contributing nothing). -/
theorem c10_row_keys_within_headers_witness :
    ("acct" : String) ∈ tableHeaders exTableBlock ∧
    cellStep ["acct"] [] exRowNumCell = [] :=
  ⟨c10_row_keys_within_headers.1 exTableBlock [("acct", "42")] ("acct", "42")
      (by decide) (by decide),
   c10_row_keys_within_headers.2 ["acct"] [] exRowNumCell (by decide)⟩

end ComparerTool
